import Mathlib

/-!
Verification development for a summed-area-table library.

The library builds, from a read-only 2D grid of numeric samples, a table of
inclusive cumulative sums, and answers rectangle sum / average / count
queries against it.  The accumulator type of the implementation is `f64`;
here all values are modelled as exact rationals (`ℚ`), so arithmetic is
exact and no machine rounding or overflow occurs.  `usize` indices are
modelled as `Nat`, with the implementation's truncated subtractions guarded
exactly as in the code.  The debug-mode assertions of the implementation are
modelled as separate boolean checks.
-/

/-- A source grid: `width`, `height`, and element access `at' x y`
(the implementation's `at(&self, x, y)`).  The function is total; only the
values with `x < width` and `y < height` belong to the grid. -/
structure SummedAreaTableSource where
  width : Nat
  height : Nat
  at' : Nat → Nat → ℚ

/-- The result of a summed-area-table calculation: a dense matrix
`table` indexed `(row, col)` with `nrows` rows and `ncols` cols,
mirroring the `DMat<f64>` field of the implementation. -/
structure SummedAreaTable where
  nrows : Nat
  ncols : Nat
  table : Nat → Nat → ℚ

/-- One iteration of the construction loop body: computes the cell value at
`(row, col)` from the source and the neighbors already stored in `t`, and
stores it.  Mirrors the body of `calculate_summed_area_table` verbatim:
guards are on `row > 0` / `col > 0` (global indices). -/
def writeCell (src : SummedAreaTableSource) (t : Nat → Nat → ℚ)
    (row col : Nat) : Nat → Nat → ℚ :=
  let sum0 := src.at' col row
  let sum1 := if row > 0 then sum0 + t (row - 1) col else sum0
  let sum2 := if col > 0 then sum1 + t row (col - 1) else sum1
  let sum3 := if row > 0 ∧ col > 0 then sum2 - t (row - 1) (col - 1) else sum2
  fun r c => if r = row ∧ c = col then sum3 else t r c

/-- `calculate_summed_area_table(source, from, to)`: allocates a zero matrix
of the FULL source dimensions (`height × width`), then runs the row-major
double loop `for row in from_y..to_y+1 { for col in from_x..to_x+1 {...} }`.
`List.range' a (b + 1 - a)` is the Rust iterator `a .. b+1` (empty when
`a > b`). -/
def calculate_summed_area_table (src : SummedAreaTableSource)
    (pfrom pto : Nat × Nat) : SummedAreaTable :=
  let from_x := pfrom.1
  let from_y := pfrom.2
  let to_x := pto.1
  let to_y := pto.2
  let init : Nat → Nat → ℚ := fun _ _ => 0
  let final := (List.range' from_y (to_y + 1 - from_y)).foldl
    (fun t row =>
      (List.range' from_x (to_x + 1 - from_x)).foldl
        (fun t2 col => writeCell src t2 row col) t)
    init
  { nrows := src.height, ncols := src.width, table := final }

/-- `calculate_full_summed_area_table(source)`: the table for the whole
source matrix, via `calculate_summed_area_table((0,0), (ncols-1, nrows-1))`. -/
def calculate_full_summed_area_table (src : SummedAreaTableSource) :
    SummedAreaTable :=
  let ncols := src.width
  let nrows := src.height
  calculate_summed_area_table src (0, 0) (ncols - 1, nrows - 1)

/-- `get_sum(from, to)`: the inclusion-exclusion rectangle sum read off the
table.  `from = (col1, row1)`, `to = (col2, row2)`.  The debug assertions of
the implementation are modelled separately (they do not change the value). -/
def get_sum (t : SummedAreaTable) (pfrom pto : Nat × Nat) : ℚ :=
  let col1 := pfrom.1
  let row1 := pfrom.2
  let col2 := pto.1
  let row2 := pto.2
  let s0 := t.table row2 col2
  let s1 := if col1 > 0 ∧ row1 > 0 then s0 + t.table (row1 - 1) (col1 - 1) else s0
  let s2 := if col1 > 0 then s1 - t.table row2 (col1 - 1) else s1
  let s3 := if row1 > 0 then s2 - t.table (row1 - 1) col2 else s2
  s3

/-- The first debug assertion of `get_sum`:
`row1 <= row2 && col1 <= col2` (`from` not right of or below `to`). -/
def get_sum_assert_order (pfrom pto : Nat × Nat) : Bool :=
  decide (pfrom.2 ≤ pto.2 ∧ pfrom.1 ≤ pto.1)

/-- The second debug assertion of `get_sum`: all four coordinates within the
table bounds `col < ncols`, `row < nrows`. -/
def get_sum_assert_bounds (t : SummedAreaTable) (pfrom pto : Nat × Nat) : Bool :=
  decide (pfrom.1 < t.ncols ∧ pto.1 < t.ncols ∧ pfrom.2 < t.nrows ∧ pto.2 < t.nrows)

/-- The two defensive underflow checks of `get_sum` (`Overlow-Alarm 1/2`):
each subtrahend must be `≤` the running sum at the moment it is subtracted.
Returns `true` exactly when neither debug assertion would fire. -/
def get_sum_overflow_ok (t : SummedAreaTable) (pfrom pto : Nat × Nat) : Bool :=
  let col1 := pfrom.1
  let row1 := pfrom.2
  let col2 := pto.1
  let row2 := pto.2
  let s0 := t.table row2 col2
  let s1 := if col1 > 0 ∧ row1 > 0 then s0 + t.table (row1 - 1) (col1 - 1) else s0
  let ok1 := if col1 > 0 then decide (t.table row2 (col1 - 1) ≤ s1) else true
  let s2 := if col1 > 0 then s1 - t.table row2 (col1 - 1) else s1
  let ok2 := if row1 > 0 then decide (t.table (row1 - 1) col2 ≤ s2) else true
  ok1 && ok2

/-- `get_data_count(from, to) = (to_x - from_x + 1) * (to_y - from_y + 1)`
(the receiver is unused by the implementation as well). -/
def get_data_count (_t : SummedAreaTable) (pfrom pto : Nat × Nat) : Nat :=
  let from_x := pfrom.1
  let from_y := pfrom.2
  let to_x := pto.1
  let to_y := pto.2
  (to_x - from_x + 1) * (to_y - from_y + 1)

/-- `get_average(from, to) = get_sum(from, to) / get_data_count(from, to)`,
the `f64` division modelled as exact division in `ℚ`. -/
def get_average (t : SummedAreaTable) (pfrom pto : Nat × Nat) : ℚ :=
  let sum := get_sum t pfrom pto
  let data_count := get_data_count t pfrom pto
  sum / (data_count : ℚ)

/-- `get_overall_average() = get_average((0,0), (ncols-1, nrows-1))`. -/
def get_overall_average (t : SummedAreaTable) : ℚ :=
  get_average t (0, 0) (t.ncols - 1, t.nrows - 1)

/-- `get_overall_sum() = get_sum((0,0), (ncols-1, nrows-1))`. -/
def get_overall_sum (t : SummedAreaTable) : ℚ :=
  get_sum t (0, 0) (t.ncols - 1, t.nrows - 1)

/-- `get_overall_data_count() = ncols * nrows`. -/
def get_overall_data_count (t : SummedAreaTable) : Nat :=
  t.ncols * t.nrows

/-! ## Mathematical layer: rectangle sums of the source -/

/-- Sum of the source over the inclusive rectangle
`fx ≤ x ≤ tx`, `fy ≤ y ≤ ty`. -/
def rectSum (src : SummedAreaTableSource) (fx fy tx ty : Nat) : ℚ :=
  ∑ y in Finset.Icc fy ty, ∑ x in Finset.Icc fx tx, src.at' x y

/-- Sum of the source over the half-open rectangle `x < c`, `y < r`
(exclusive corner form, convenient for telescoping). -/
def gridSum (src : SummedAreaTableSource) (c r : Nat) : ℚ :=
  ∑ y in Finset.range r, ∑ x in Finset.range c, src.at' x y

/-- Membership of a cell `(r, c)` (row, col) in the build sub-rectangle. -/
def inRect (fx fy tx ty r c : Nat) : Prop :=
  fy ≤ r ∧ r ≤ ty ∧ fx ≤ c ∧ c ≤ tx

instance (fx fy tx ty r c : Nat) : Decidable (inRect fx fy tx ty r c) := by
  unfold inRect; infer_instance

/-- The construction state after the cells of rows `< r`, and of row `r`
strictly left of column `k`, inside the sub-rectangle have been written. -/
def tableUpTo (src : SummedAreaTableSource) (fx fy tx ty r k : Nat) :
    Nat → Nat → ℚ :=
  fun r' c' =>
    if inRect fx fy tx ty r' c' ∧ (r' < r ∨ (r' = r ∧ c' < k)) then
      rectSum src fx fy c' r'
    else 0

/-- Concrete 2×2 source `[[1,2],[3,4]]` (row-major), used as a witness grid. -/
def srcA : SummedAreaTableSource :=
  { width := 2, height := 2,
    at' := fun x y =>
      if x = 0 ∧ y = 0 then 1
      else if x = 1 ∧ y = 0 then 2
      else if x = 0 ∧ y = 1 then 3
      else if x = 1 ∧ y = 1 then 4
      else 0 }

/-- Concrete 2×2 source that is `-5` at `(x,y) = (1,0)` and `0` elsewhere;
a signed grid used to exercise the defensive underflow checks. -/
def srcNeg : SummedAreaTableSource :=
  { width := 2, height := 2,
    at' := fun x y => if x = 1 ∧ y = 0 then -5 else 0 }

/-- Concrete 2×2 all-ones source. -/
def srcOnes : SummedAreaTableSource :=
  { width := 2, height := 2, at' := fun _ _ => 1 }


/-! ## Lemmas about rectangle sums -/

theorem sum_Icc_split (f : Nat → ℚ) (a b : Nat) (h : a < b) :
    ∑ x in Finset.Icc a b, f x = (∑ x in Finset.Icc a (b - 1), f x) + f b := by
  obtain ⟨b', rfl⟩ : ∃ b', b = b' + 1 := ⟨b - 1, by omega⟩
  rw [Finset.sum_Icc_succ_top (by omega)]
  simp

theorem rectSum_split_row (src : SummedAreaTableSource) (fx fy c r : Nat)
    (h : fy < r) :
    rectSum src fx fy c r
      = rectSum src fx fy c (r - 1) + ∑ x in Finset.Icc fx c, src.at' x r := by
  unfold rectSum
  exact sum_Icc_split (fun y => ∑ x in Finset.Icc fx c, src.at' x y) fy r h

theorem rectSum_single_row (src : SummedAreaTableSource) (fx r c : Nat) :
    rectSum src fx r c r = ∑ x in Finset.Icc fx c, src.at' x r := by
  unfold rectSum
  rw [Finset.Icc_self, Finset.sum_singleton]

/-- The construction recurrence: the rectangle sum at `(r, c)` equals the new
element plus the up / left rectangle sums minus the double-counted corner. -/
theorem rectSum_rec (src : SummedAreaTableSource) (fx fy r c : Nat)
    (hr : fy ≤ r) (hc : fx ≤ c) :
    rectSum src fx fy c r
      = src.at' c r
        + (if fy < r then rectSum src fx fy c (r - 1) else 0)
        + (if fx < c then rectSum src fx fy (c - 1) r else 0)
        - (if fy < r ∧ fx < c then rectSum src fx fy (c - 1) (r - 1) else 0) := by
  rcases eq_or_lt_of_le hr with h1 | h1 <;> rcases eq_or_lt_of_le hc with h2 | h2
  · subst h1; subst h2
    simp [rectSum_single_row, Finset.Icc_self]
  · subst h1
    rw [if_neg (lt_irrefl fy), if_pos h2, if_neg (by simp [lt_irrefl])]
    rw [rectSum_single_row, rectSum_single_row,
      sum_Icc_split (fun x => src.at' x fy) fx c h2]
    ring
  · subst h2
    rw [if_pos h1, if_neg (lt_irrefl fx), if_neg (by simp [lt_irrefl])]
    rw [rectSum_split_row src fx fy fx r h1, Finset.Icc_self, Finset.sum_singleton]
    ring
  · rw [if_pos h1, if_pos h2, if_pos ⟨h1, h2⟩]
    rw [rectSum_split_row src fx fy c r h1,
      rectSum_split_row src fx fy (c - 1) r h1,
      sum_Icc_split (fun x => src.at' x r) fx c h2]
    ring

/-- Telescoping form: an inclusive rectangle sum as a ± combination of four
corner-anchored half-open sums. -/
theorem rectSum_eq_gridSum (src : SummedAreaTableSource) (fx fy tx ty : Nat)
    (hx : fx ≤ tx + 1) (hy : fy ≤ ty + 1) :
    rectSum src fx fy tx ty
      = gridSum src (tx + 1) (ty + 1) - gridSum src fx (ty + 1)
        - gridSum src (tx + 1) fy + gridSum src fx fy := by
  unfold rectSum gridSum
  have inner : ∀ y, ∑ x in Finset.Icc fx tx, src.at' x y
      = (∑ x in Finset.range (tx + 1), src.at' x y)
        - ∑ x in Finset.range fx, src.at' x y := by
    intro y
    rw [← Nat.Ico_succ_right, Finset.sum_Ico_eq_sub _ hx]
  calc ∑ y in Finset.Icc fy ty, ∑ x in Finset.Icc fx tx, src.at' x y
      = ∑ y in Finset.Icc fy ty,
          ((∑ x in Finset.range (tx + 1), src.at' x y)
            - ∑ x in Finset.range fx, src.at' x y) :=
        Finset.sum_congr rfl fun y _ => inner y
    _ = (∑ y in Finset.Icc fy ty, ∑ x in Finset.range (tx + 1), src.at' x y)
          - ∑ y in Finset.Icc fy ty, ∑ x in Finset.range fx, src.at' x y :=
        Finset.sum_sub_distrib
    _ = _ := by
        rw [← Nat.Ico_succ_right, Finset.sum_Ico_eq_sub _ hy,
          Finset.sum_Ico_eq_sub _ hy]
        ring

theorem rectSum_zero_zero (src : SummedAreaTableSource) (c r : Nat) :
    rectSum src 0 0 c r = gridSum src (c + 1) (r + 1) := by
  rw [rectSum_eq_gridSum src 0 0 c r (by omega) (by omega)]
  simp [gridSum]

/-! ## The construction loop computes rectangle sums -/

/-- Writing cell `(r, k)` of the sub-rectangle extends the in-progress
table state by one column. -/
theorem writeCell_step (src : SummedAreaTableSource) (fx fy tx ty r k : Nat)
    (hr1 : fy ≤ r) (hr2 : r ≤ ty) (hk1 : fx ≤ k) (hk2 : k ≤ tx) :
    writeCell src (tableUpTo src fx fy tx ty r k) r k
      = tableUpTo src fx fy tx ty r (k + 1) := by
  have hA : tableUpTo src fx fy tx ty r k (r - 1) k
      = if fy < r then rectSum src fx fy k (r - 1) else 0 := by
    simp only [tableUpTo, inRect, true_and, and_true, lt_self_iff_false, false_or, or_false, false_and, and_false]
    split_ifs <;> first | rfl | omega
  have hB : tableUpTo src fx fy tx ty r k r (k - 1)
      = if fx < k then rectSum src fx fy (k - 1) r else 0 := by
    simp only [tableUpTo, inRect, true_and, and_true, lt_self_iff_false, false_or, or_false, false_and, and_false]
    split_ifs <;> first | rfl | omega
  have hC : r > 0 → k > 0 → tableUpTo src fx fy tx ty r k (r - 1) (k - 1)
      = if fy < r ∧ fx < k then rectSum src fx fy (k - 1) (r - 1) else 0 := by
    intro hr0 hk0
    simp only [tableUpTo, inRect, true_and, and_true, lt_self_iff_false, false_or, or_false, false_and, and_false]
    split_ifs <;> first | rfl | omega
  funext r' c'
  simp only [writeCell]
  by_cases hcell : r' = r ∧ c' = k
  · obtain ⟨rfl, rfl⟩ := hcell
    rw [if_pos ⟨rfl, rfl⟩]
    have hgoal : tableUpTo src fx fy tx ty r' (c' + 1) r' c'
        = rectSum src fx fy c' r' := by
      show (if inRect fx fy tx ty r' c' ∧ (r' < r' ∨ (r' = r' ∧ c' < c' + 1)) then
          rectSum src fx fy c' r' else 0) = rectSum src fx fy c' r'
      rw [if_pos ⟨⟨hr1, hr2, hk1, hk2⟩, Or.inr ⟨rfl, Nat.lt_succ_self c'⟩⟩]
    rw [hgoal, rectSum_rec src fx fy r' c' hr1 hk1]
    by_cases h0r : r' > 0 <;> by_cases h0k : c' > 0
    · rw [if_pos h0r, if_pos h0k, if_pos ⟨h0r, h0k⟩, hA, hB, hC h0r h0k]
    · rw [if_pos h0r, if_neg h0k, if_neg (by omega), hA,
        if_neg (by omega : ¬fx < c'), if_neg (by omega : ¬(fy < r' ∧ fx < c'))]
      ring
    · rw [if_neg h0r, if_pos h0k, if_neg (by omega), hB,
        if_neg (by omega : ¬fy < r'), if_neg (by omega : ¬(fy < r' ∧ fx < c'))]
      ring
    · rw [if_neg h0r, if_neg h0k, if_neg (by omega),
        if_neg (by omega : ¬fy < r'), if_neg (by omega : ¬fx < c'),
        if_neg (by omega : ¬(fy < r' ∧ fx < c'))]
      ring
  · rw [if_neg hcell]
    simp only [tableUpTo, inRect, true_and, and_true, lt_self_iff_false, false_or, or_false, false_and, and_false]
    split_ifs <;> first | rfl | omega

/-- Running the inner (column) loop from column `k` for `len` steps. -/
theorem inner_loop (src : SummedAreaTableSource) (fx fy tx ty r : Nat)
    (hr1 : fy ≤ r) (hr2 : r ≤ ty) :
    ∀ len k, fx ≤ k → k + len ≤ tx + 1 →
      (List.range' k len).foldl (fun t2 col => writeCell src t2 r col)
          (tableUpTo src fx fy tx ty r k)
        = tableUpTo src fx fy tx ty r (k + len) := by
  intro len
  induction len with
  | zero => intro k _ _; simp
  | succ n ih =>
    intro k hk1 hk2
    have e : k + (n + 1) = k + 1 + n := by omega
    rw [e, List.range'_succ, List.foldl_cons,
      writeCell_step src fx fy tx ty r k hr1 hr2 hk1 (by omega),
      ih (k + 1) (by omega) (by omega)]

/-- After finishing a row, the state is the start state of the next row. -/
theorem tableUpTo_row_advance (src : SummedAreaTableSource) (fx fy tx ty r : Nat) :
    tableUpTo src fx fy tx ty r (tx + 1) = tableUpTo src fx fy tx ty (r + 1) fx := by
  funext r' c'
  simp only [tableUpTo, inRect, true_and, and_true, lt_self_iff_false, false_or, or_false, false_and, and_false]
  split_ifs <;> first | rfl | omega

/-- With an empty column range every in-progress table state is all zero. -/
theorem tableUpTo_empty_cols (src : SummedAreaTableSource) (fx fy tx ty a b : Nat)
    (h : tx < fx) :
    tableUpTo src fx fy tx ty a b = fun _ _ => 0 := by
  funext r' c'
  simp only [tableUpTo, inRect, true_and, and_true, lt_self_iff_false, false_or, or_false, false_and, and_false]
  split_ifs <;> first | rfl | omega

/-- Running the outer (row) loop from row `r` for `len` steps. -/
theorem outer_loop (src : SummedAreaTableSource) (fx fy tx ty : Nat) :
    ∀ len r, fy ≤ r → r + len ≤ ty + 1 →
      (List.range' r len).foldl
          (fun t row => (List.range' fx (tx + 1 - fx)).foldl
            (fun t2 col => writeCell src t2 row col) t)
          (tableUpTo src fx fy tx ty r fx)
        = tableUpTo src fx fy tx ty (r + len) fx := by
  intro len
  induction len with
  | zero => intro r _ _; simp
  | succ n ih =>
    intro r hr1 hr2
    have e : r + (n + 1) = r + 1 + n := by omega
    rw [e, List.range'_succ, List.foldl_cons]
    have hrow : (List.range' fx (tx + 1 - fx)).foldl
        (fun t2 col => writeCell src t2 r col) (tableUpTo src fx fy tx ty r fx)
        = tableUpTo src fx fy tx ty (r + 1) fx := by
      by_cases hx : fx ≤ tx
      · have e : fx + (tx + 1 - fx) = tx + 1 := by omega
        rw [inner_loop src fx fy tx ty r hr1 (by omega) (tx + 1 - fx) fx le_rfl
          (by omega), e, tableUpTo_row_advance]
      · have h0 : tx + 1 - fx = 0 := by omega
        rw [h0]
        show tableUpTo src fx fy tx ty r fx = tableUpTo src fx fy tx ty (r + 1) fx
        rw [tableUpTo_empty_cols src fx fy tx ty r fx (by omega),
          tableUpTo_empty_cols src fx fy tx ty (r + 1) fx (by omega)]
    rw [hrow, ih (r + 1) (by omega) (by omega)]

/-- The characterization of the built table: full source dimensions; cells of
the sub-rectangle hold the rectangle sum anchored at `(from_x, from_y)`,
addressed by their original global coordinates; all other cells are zero. -/
theorem calc_table_char (src : SummedAreaTableSource) (fx fy tx ty : Nat) :
    (calculate_summed_area_table src (fx, fy) (tx, ty)).table
      = fun r c => if inRect fx fy tx ty r c then rectSum src fx fy c r else 0 := by
  have hinit : (fun _ _ => (0 : ℚ)) = tableUpTo src fx fy tx ty fy fx := by
    funext r' c'
    simp only [tableUpTo, inRect, true_and, and_true, lt_self_iff_false, false_or, or_false, false_and, and_false]
    split_ifs <;> first | rfl | omega
  have hfinal : tableUpTo src fx fy tx ty (ty + 1) fx
      = fun r c => if inRect fx fy tx ty r c then rectSum src fx fy c r else 0 := by
    funext r' c'
    simp only [tableUpTo, inRect, true_and, and_true, lt_self_iff_false, false_or, or_false, false_and, and_false]
    split_ifs <;> first | rfl | omega
  show (List.range' fy (ty + 1 - fy)).foldl
      (fun t row => (List.range' fx (tx + 1 - fx)).foldl
        (fun t2 col => writeCell src t2 row col) t)
      (fun _ _ => 0)
    = _
  by_cases hy : fy ≤ ty
  · have e : fy + (ty + 1 - fy) = ty + 1 := by omega
    rw [hinit, outer_loop src fx fy tx ty (ty + 1 - fy) fy le_rfl (by omega), e,
      hfinal]
  · have h0 : ty + 1 - fy = 0 := by omega
    rw [h0]
    show (fun _ _ => (0 : ℚ)) = _
    funext r' c'
    simp only [inRect]
    split_ifs <;> first | rfl | omega

/-- Any in-bounds entry of the full table is the half-open corner sum
`gridSum (c+1) (r+1)`. -/
theorem full_table_entry (src : SummedAreaTableSource) (r c : Nat)
    (hr : r < src.height) (hc : c < src.width) :
    (calculate_full_summed_area_table src).table r c = gridSum src (c + 1) (r + 1) := by
  show (calculate_summed_area_table src (0, 0) (src.width - 1, src.height - 1)).table r c = _
  rw [calc_table_char]
  simp only [inRect]
  rw [if_pos (by omega), rectSum_zero_zero]

/-- `get_sum` on the full table computes the inclusive rectangle sum of the
source, for any ordered, in-bounds query rectangle. -/
theorem get_sum_full (src : SummedAreaTableSource) (fx fy tx ty : Nat)
    (h1 : fx ≤ tx) (h2 : fy ≤ ty) (h3 : tx < src.width) (h4 : ty < src.height) :
    get_sum (calculate_full_summed_area_table src) (fx, fy) (tx, ty)
      = rectSum src fx fy tx ty := by
  simp only [get_sum]
  rw [full_table_entry src ty tx h4 h3,
    full_table_entry src (fy - 1) (fx - 1) (by omega) (by omega),
    full_table_entry src ty (fx - 1) h4 (by omega),
    full_table_entry src (fy - 1) tx (by omega) h3,
    rectSum_eq_gridSum src fx fy tx ty (by omega) (by omega)]
  split_ifs with hA hB hC <;>
    first
      | (exfalso; omega)
      | (have e1 : fx - 1 + 1 = fx := by omega
         have e2 : fy - 1 + 1 = fy := by omega
         rw [e1, e2]; ring_nf)
      | (have e1 : fx - 1 + 1 = fx := by omega
         have e0 : fy = 0 := by omega
         rw [e1, e0]; simp [gridSum])
      | (have e2 : fy - 1 + 1 = fy := by omega
         have e0 : fx = 0 := by omega
         rw [e2, e0]; simp [gridSum])
      | (have ex : fx = 0 := by omega
         have ey : fy = 0 := by omega
         rw [ex, ey]; simp [gridSum])

/-! ## Non-negative sources: monotonicity and safety of the checks -/

/-- Shorthand for: every in-bounds value of the source is non-negative. -/
def nonnegSource (src : SummedAreaTableSource) : Prop :=
  ∀ x, x < src.width → ∀ y, y < src.height → 0 ≤ src.at' x y

instance (src : SummedAreaTableSource) : Decidable (nonnegSource src) := by
  unfold nonnegSource; infer_instance

theorem gridSum_nonneg (src : SummedAreaTableSource) (hpos : nonnegSource src)
    (c r : Nat) (hc : c ≤ src.width) (hr : r ≤ src.height) :
    0 ≤ gridSum src c r := by
  unfold gridSum
  apply Finset.sum_nonneg
  intro y hy
  apply Finset.sum_nonneg
  intro x hx
  exact hpos x (by
    have := Finset.mem_range.mp hx
    omega) y (by
    have := Finset.mem_range.mp hy
    omega)

theorem rectSum_nonneg (src : SummedAreaTableSource) (hpos : nonnegSource src)
    (fx fy tx ty : Nat) (hx : tx < src.width) (hy : ty < src.height) :
    0 ≤ rectSum src fx fy tx ty := by
  unfold rectSum
  apply Finset.sum_nonneg
  intro y hy'
  apply Finset.sum_nonneg
  intro x hx'
  have h1 := Finset.mem_Icc.mp hx'
  have h2 := Finset.mem_Icc.mp hy'
  exact hpos x (by omega) y (by omega)

/-- `gridSum` is monotone in both corner coordinates for non-negative
sources (within bounds). -/
theorem gridSum_mono (src : SummedAreaTableSource) (hpos : nonnegSource src)
    (c c' r r' : Nat) (hcc : c ≤ c') (hrr : r ≤ r')
    (hc' : c' ≤ src.width) (hr' : r' ≤ src.height) :
    gridSum src c r ≤ gridSum src c' r' := by
  unfold gridSum
  have step1 : ∀ y, y < src.height →
      (∑ x in Finset.range c, src.at' x y) ≤ ∑ x in Finset.range c', src.at' x y := by
    intro y hy
    apply Finset.sum_le_sum_of_subset_of_nonneg (Finset.range_subset.mpr hcc)
    intro x hx _
    exact hpos x (by
      have := Finset.mem_range.mp hx
      omega) y hy
  calc ∑ y in Finset.range r, ∑ x in Finset.range c, src.at' x y
      ≤ ∑ y in Finset.range r, ∑ x in Finset.range c', src.at' x y := by
        apply Finset.sum_le_sum
        intro y hy
        exact step1 y (by
          have := Finset.mem_range.mp hy
          omega)
    _ ≤ ∑ y in Finset.range r', ∑ x in Finset.range c', src.at' x y := by
        apply Finset.sum_le_sum_of_subset_of_nonneg (Finset.range_subset.mpr hrr)
        intro y hy _
        apply Finset.sum_nonneg
        intro x hx
        exact hpos x (by
          have := Finset.mem_range.mp hx
          omega) y (by
          have := Finset.mem_range.mp hy
          omega)

/-- `get_sum` anchored at the origin is just a table read. -/
theorem get_sum_zero_corner (t : SummedAreaTable) (tx ty : Nat) :
    get_sum t (0, 0) (tx, ty) = t.table ty tx := by
  simp [get_sum]

/-! ## Claims -/

/-- Claim C1: for every source grid, on the table built over the full grid by
`calculate_full_summed_area_table`, and for every query rectangle with
`from ≤ to` componentwise and all four coordinates within the table bounds,
`get_sum(from, to)` is exactly the sum of `source.at(x, y)` over
`from.x ≤ x ≤ to.x` and `from.y ≤ y ≤ to.y`. -/
theorem C1_get_sum_full_grid_correct (src : SummedAreaTableSource)
    (fx fy tx ty : Nat) (h1 : fx ≤ tx) (h2 : fy ≤ ty)
    (h3 : tx < src.width) (h4 : ty < src.height) :
    get_sum (calculate_full_summed_area_table src) (fx, fy) (tx, ty)
      = ∑ x in Finset.Icc fx tx, ∑ y in Finset.Icc fy ty, src.at' x y := by
  rw [get_sum_full src fx fy tx ty h1 h2 h3 h4, rectSum]
  exact Finset.sum_comm

theorem C1_witness :
    ((0 : Nat) ≤ 1 ∧ (0 : Nat) ≤ 1 ∧ 1 < srcA.width ∧ 1 < srcA.height) ∧
      get_sum (calculate_full_summed_area_table srcA) (0, 0) (1, 1)
        = ∑ x in Finset.Icc 0 1, ∑ y in Finset.Icc 0 1, srcA.at' x y :=
  ⟨⟨by decide, by decide, by decide, by decide⟩,
    C1_get_sum_full_grid_correct srcA 0 0 1 1 (by decide) (by decide)
      (by decide) (by decide)⟩

/-- Claim C2 counterexample: building with `from = (1,1)` right of and below
`to = (0,0)` on a 2×2 all-ones source does NOT fail: no assertion or
validation exists in `calculate_summed_area_table`, the loops run zero
iterations, and a full-size all-zero table is returned silently (querying it
then yields 0, not an error). -/
theorem C2_counterexample :
    (calculate_summed_area_table srcOnes (1, 1) (0, 0)).table = (fun _ _ => 0) ∧
    (calculate_summed_area_table srcOnes (1, 1) (0, 0)).nrows = 2 ∧
    (calculate_summed_area_table srcOnes (1, 1) (0, 0)).ncols = 2 ∧
    get_sum (calculate_summed_area_table srcOnes (1, 1) (0, 0)) (0, 0) (1, 1) = 0 :=
  ⟨rfl, rfl, rfl, by decide⟩

/-- Claim C2 (amended): `calculate_summed_area_table` performs no validation
at all.  Whenever `from` lies right of or below `to` on either axis, the
loop bodies never execute and a full-size (source-dimensioned), all-zero
table is silently returned instead of an assertion or validation error. -/
theorem C2_no_validation_silent_zero_table (src : SummedAreaTableSource)
    (fx fy tx ty : Nat) (h : tx < fx ∨ ty < fy) :
    (calculate_summed_area_table src (fx, fy) (tx, ty)).table = (fun _ _ => 0) ∧
    (calculate_summed_area_table src (fx, fy) (tx, ty)).nrows = src.height ∧
    (calculate_summed_area_table src (fx, fy) (tx, ty)).ncols = src.width := by
  refine ⟨?_, rfl, rfl⟩
  rw [calc_table_char]
  funext r c
  simp only [inRect]
  split_ifs with hc
  · exfalso; omega
  · rfl

theorem C2_witness :
    ((0 : Nat) < 1 ∨ (0 : Nat) < 1) ∧
      (calculate_summed_area_table srcOnes (1, 1) (0, 0)).table = (fun _ _ => 0) ∧
      (calculate_summed_area_table srcOnes (1, 1) (0, 0)).nrows = srcOnes.height ∧
      (calculate_summed_area_table srcOnes (1, 1) (0, 0)).ncols = srcOnes.width :=
  ⟨Or.inl (by decide),
    C2_no_validation_silent_zero_table srcOnes 1 1 0 0 (Or.inl (by decide))⟩

/-- Claim C3: the debug validation of `get_sum` succeeds exactly when the
preconditions hold: both assertion conditions are `true` iff
`from.x ≤ to.x`, `from.y ≤ to.y` and all four coordinates are strictly
within the table dimensions; so a reversed rectangle, or any coordinate
equal to or exceeding the width/height, fails validation, and no valid
rectangle does. -/
theorem C3_get_sum_validation_iff (t : SummedAreaTable) (fx fy tx ty : Nat) :
    (get_sum_assert_order (fx, fy) (tx, ty) = true ∧
        get_sum_assert_bounds t (fx, fy) (tx, ty) = true)
      ↔ (fx ≤ tx ∧ fy ≤ ty ∧
          fx < t.ncols ∧ tx < t.ncols ∧ fy < t.nrows ∧ ty < t.nrows) := by
  simp only [get_sum_assert_order, get_sum_assert_bounds, decide_eq_true_eq]
  constructor
  · rintro ⟨⟨a1, a2⟩, b1, b2, b3, b4⟩
    exact ⟨a2, a1, b1, b2, b3, b4⟩
  · rintro ⟨a2, a1, b1, b2, b3, b4⟩
    exact ⟨⟨a1, a2⟩, b1, b2, b3, b4⟩

/-- Claim C4 counterexample: on the signed 2×2 source `srcNeg` (value `-5`
at `(1,0)`), the table built over the full grid with exact arithmetic (so no
accumulator overflow anywhere), together with the valid, ordered, in-bounds
query rectangle `from = (1,0)`, `to = (1,1)`, trips the first defensive
underflow check: the subtrahend `0` exceeds the running sum `-5`. -/
theorem C4_counterexample :
    get_sum_assert_order (1, 0) (1, 1) = true ∧
    get_sum_assert_bounds (calculate_full_summed_area_table srcNeg) (1, 0) (1, 1) = true ∧
    get_sum_overflow_ok (calculate_full_summed_area_table srcNeg) (1, 0) (1, 1) = false := by
  have h11 : (calculate_full_summed_area_table srcNeg).table 1 1 = -5 := by
    rw [full_table_entry srcNeg 1 1 (by decide) (by decide)]
    simp [gridSum, Finset.sum_range_succ, srcNeg]
  have h10 : (calculate_full_summed_area_table srcNeg).table 1 0 = 0 := by
    rw [full_table_entry srcNeg 1 0 (by decide) (by decide)]
    simp [gridSum, Finset.sum_range_succ, srcNeg]
  refine ⟨by decide, by decide, ?_⟩
  simp only [get_sum_overflow_ok, h11, h10]
  norm_num

/-- Claim C4 (amended): for every source grid whose in-bounds values are all
NON-NEGATIVE, on a table built over the full grid, the two defensive
underflow checks of `get_sum` are never triggered by any ordered, in-bounds
query rectangle: both checked subtractions satisfy `temp ≤ sum`.  (For signed
sources with negative values the checks can fire on valid queries, see the
counterexample.) -/
theorem C4_overflow_checks_hold_nonneg (src : SummedAreaTableSource)
    (hpos : nonnegSource src) (fx fy tx ty : Nat)
    (h1 : fx ≤ tx) (h2 : fy ≤ ty) (h3 : tx < src.width) (h4 : ty < src.height) :
    get_sum_overflow_ok (calculate_full_summed_area_table src) (fx, fy) (tx, ty)
      = true := by
  have mono1 : gridSum src fx (ty + 1) ≤ gridSum src (tx + 1) (ty + 1) :=
    gridSum_mono src hpos fx (tx + 1) (ty + 1) (ty + 1) (by omega) le_rfl
      (by omega) (by omega)
  have mono2 : gridSum src (tx + 1) fy ≤ gridSum src (tx + 1) (ty + 1) :=
    gridSum_mono src hpos (tx + 1) (tx + 1) fy (ty + 1) le_rfl (by omega)
      (by omega) (by omega)
  have nn1 : 0 ≤ gridSum src fx fy :=
    gridSum_nonneg src hpos fx fy (by omega) (by omega)
  have rect : rectSum src fx fy tx ty
      = gridSum src (tx + 1) (ty + 1) - gridSum src fx (ty + 1)
        - gridSum src (tx + 1) fy + gridSum src fx fy :=
    rectSum_eq_gridSum src fx fy tx ty (by omega) (by omega)
  have rectnn : 0 ≤ rectSum src fx fy tx ty :=
    rectSum_nonneg src hpos fx fy tx ty h3 h4
  simp only [get_sum_overflow_ok]
  rw [full_table_entry src ty tx h4 h3,
    full_table_entry src (fy - 1) (fx - 1) (by omega) (by omega),
    full_table_entry src ty (fx - 1) h4 (by omega),
    full_table_entry src (fy - 1) tx (by omega) h3]
  split_ifs with hA hB hC <;>
    simp only [Bool.and_eq_true, decide_eq_true_eq] <;>
    first
      | (exfalso; omega)
      | trivial
      | (constructor <;>
          first
            | trivial
            | (have e1 : fx - 1 + 1 = fx := by omega
               have e2 : fy - 1 + 1 = fy := by omega
               rw [e1, e2] at *
               linarith)
            | (have e1 : fx - 1 + 1 = fx := by omega
               rw [e1] at *
               linarith)
            | (have e2 : fy - 1 + 1 = fy := by omega
               rw [e2] at *
               linarith))

theorem C4_witness :
    nonnegSource srcOnes ∧
      get_sum_overflow_ok (calculate_full_summed_area_table srcOnes) (1, 1) (1, 1)
        = true :=
  ⟨by decide,
    C4_overflow_checks_hold_nonneg srcOnes (by decide) 1 1 1 1 (by decide)
      (by decide) (by decide) (by decide)⟩

/-- Claim C5 counterexample: building over the 1×1 sub-rectangle
`(1,1)..(1,1)` of a 2×2 source yields a table of dimensions 2×2 — the FULL
source dimensions, not the sub-rectangle's 1×1 — and the single written
value sits at its original global coordinate `(1,1)` while the local-space
origin `(0,0)` holds zero. -/
theorem C5_counterexample :
    (calculate_summed_area_table srcA (1, 1) (1, 1)).nrows = 2 ∧
    (calculate_summed_area_table srcA (1, 1) (1, 1)).ncols = 2 ∧
    ¬((calculate_summed_area_table srcA (1, 1) (1, 1)).nrows = 1 ∧
        (calculate_summed_area_table srcA (1, 1) (1, 1)).ncols = 1) ∧
    (calculate_summed_area_table srcA (1, 1) (1, 1)).table 1 1 = 4 ∧
    (calculate_summed_area_table srcA (1, 1) (1, 1)).table 0 0 = 0 := by
  refine ⟨rfl, rfl, by decide, ?_, ?_⟩
  · rw [calc_table_char]
    show (if inRect 1 1 1 1 1 1 then rectSum srcA 1 1 1 1 else 0) = 4
    rw [if_pos (by decide)]
    simp [rectSum, Finset.Icc_self, srcA]
  · rw [calc_table_char]
    show (if inRect 1 1 1 1 0 0 then rectSum srcA 1 1 0 0 else 0) = 0
    rw [if_neg (by decide)]

/-- Claim C5 (amended): the table returned by `calculate_summed_area_table`
has the dimensions of the FULL source (`height × width`), not of the
sub-rectangle, and its query coordinate space is the source's global
coordinate space: each cell of the sub-rectangle holds the cumulative sum
anchored at `(from_x, from_y)` addressed by its original global
coordinates. -/
theorem C5_full_dims_global_coords (src : SummedAreaTableSource)
    (fx fy tx ty : Nat) :
    (calculate_summed_area_table src (fx, fy) (tx, ty)).nrows = src.height ∧
    (calculate_summed_area_table src (fx, fy) (tx, ty)).ncols = src.width ∧
    ∀ r c, fy ≤ r → r ≤ ty → fx ≤ c → c ≤ tx →
      (calculate_summed_area_table src (fx, fy) (tx, ty)).table r c
        = rectSum src fx fy c r := by
  refine ⟨rfl, rfl, ?_⟩
  intro r c h1 h2 h3 h4
  rw [calc_table_char]
  show (if inRect fx fy tx ty r c then rectSum src fx fy c r else 0) = _
  rw [if_pos ⟨h1, h2, h3, h4⟩]

theorem C5_witness :
    (calculate_summed_area_table srcA (1, 1) (1, 1)).nrows = srcA.height ∧
    ((1 : Nat) ≤ 1 ∧
      (calculate_summed_area_table srcA (1, 1) (1, 1)).table 1 1
        = rectSum srcA 1 1 1 1) :=
  ⟨(C5_full_dims_global_coords srcA 1 1 1 1).1,
    le_rfl,
    (C5_full_dims_global_coords srcA 1 1 1 1).2.2 1 1 (by decide) (by decide)
      (by decide) (by decide)⟩

/-- Claim C6: for every source grid whose (in-bounds) values are all
non-negative, the full-grid table is monotone non-decreasing along both the
row and the column direction — every cell is `≥` its upper neighbor and its
left neighbor — and equivalently `get_sum((0,0), to)` is non-decreasing as
`to.x` or `to.y` increases. -/
theorem C6_monotone_nonneg (src : SummedAreaTableSource)
    (hpos : nonnegSource src) :
    (∀ r c, r + 1 < src.height → c < src.width →
      (calculate_full_summed_area_table src).table r c
        ≤ (calculate_full_summed_area_table src).table (r + 1) c) ∧
    (∀ r c, r < src.height → c + 1 < src.width →
      (calculate_full_summed_area_table src).table r c
        ≤ (calculate_full_summed_area_table src).table r (c + 1)) ∧
    (∀ tx ty, tx < src.width → ty + 1 < src.height →
      get_sum (calculate_full_summed_area_table src) (0, 0) (tx, ty)
        ≤ get_sum (calculate_full_summed_area_table src) (0, 0) (tx, ty + 1)) ∧
    (∀ tx ty, tx + 1 < src.width → ty < src.height →
      get_sum (calculate_full_summed_area_table src) (0, 0) (tx, ty)
        ≤ get_sum (calculate_full_summed_area_table src) (0, 0) (tx + 1, ty)) := by
  refine ⟨?_, ?_, ?_, ?_⟩
  · intro r c h1 h2
    rw [full_table_entry src r c (by omega) h2,
      full_table_entry src (r + 1) c h1 h2]
    exact gridSum_mono src hpos (c + 1) (c + 1) (r + 1) (r + 2) le_rfl
      (by omega) (by omega) (by omega)
  · intro r c h1 h2
    rw [full_table_entry src r c h1 (by omega),
      full_table_entry src r (c + 1) h1 h2]
    exact gridSum_mono src hpos (c + 1) (c + 2) (r + 1) (r + 1) (by omega)
      le_rfl (by omega) (by omega)
  · intro tx ty h1 h2
    rw [get_sum_zero_corner, get_sum_zero_corner,
      full_table_entry src ty tx (by omega) h1,
      full_table_entry src (ty + 1) tx h2 h1]
    exact gridSum_mono src hpos (tx + 1) (tx + 1) (ty + 1) (ty + 2) le_rfl
      (by omega) (by omega) (by omega)
  · intro tx ty h1 h2
    rw [get_sum_zero_corner, get_sum_zero_corner,
      full_table_entry src ty tx h2 (by omega),
      full_table_entry src ty (tx + 1) h2 h1]
    exact gridSum_mono src hpos (tx + 1) (tx + 2) (ty + 1) (ty + 1) (by omega)
      le_rfl (by omega) (by omega)

theorem C6_witness :
    nonnegSource srcOnes ∧
      (calculate_full_summed_area_table srcOnes).table 0 0
        ≤ (calculate_full_summed_area_table srcOnes).table 1 0 :=
  ⟨by decide, (C6_monotone_nonneg srcOnes (by decide)).1 0 0 (by decide) (by decide)⟩

/-- Claim C7: `calculate_full_summed_area_table(source)` equals
`calculate_summed_area_table(source, (0,0), (width-1, height-1))`, and on
every built table `get_overall_sum`, `get_overall_average` and
`get_overall_data_count` return the same results as `get_sum`, `get_average`
and `get_data_count` with `from = (0,0)` and `to = (width-1, height-1)`. -/
theorem C7_overall_equivalences (src : SummedAreaTableSource)
    (t : SummedAreaTable) (h1 : 1 ≤ t.ncols) (h2 : 1 ≤ t.nrows) :
    calculate_full_summed_area_table src
      = calculate_summed_area_table src (0, 0) (src.width - 1, src.height - 1) ∧
    get_overall_sum t = get_sum t (0, 0) (t.ncols - 1, t.nrows - 1) ∧
    get_overall_average t = get_average t (0, 0) (t.ncols - 1, t.nrows - 1) ∧
    get_overall_data_count t = get_data_count t (0, 0) (t.ncols - 1, t.nrows - 1) := by
  refine ⟨rfl, rfl, rfl, ?_⟩
  simp only [get_overall_data_count, get_data_count]
  have e1 : t.ncols - 1 - 0 + 1 = t.ncols := by omega
  have e2 : t.nrows - 1 - 0 + 1 = t.nrows := by omega
  rw [e1, e2]

theorem C7_witness :
    (1 ≤ (calculate_full_summed_area_table srcA).ncols ∧
      1 ≤ (calculate_full_summed_area_table srcA).nrows) ∧
      get_overall_data_count (calculate_full_summed_area_table srcA)
        = get_data_count (calculate_full_summed_area_table srcA) (0, 0)
            ((calculate_full_summed_area_table srcA).ncols - 1,
             (calculate_full_summed_area_table srcA).nrows - 1) :=
  ⟨⟨by decide, by decide⟩,
    (C7_overall_equivalences srcA (calculate_full_summed_area_table srcA)
      (by decide) (by decide)).2.2.2⟩

/-- Claim C8: for every built table and query rectangle satisfying the
preconditions, `get_average(from, to)` equals
`get_sum(from, to) / get_data_count(from, to)` (the implementation's `f64`
division modelled as exact division in `ℚ`). -/
theorem C8_average_eq_sum_div_count (t : SummedAreaTable) (fx fy tx ty : Nat)
    (_h1 : fx ≤ tx) (_h2 : fy ≤ ty) (_h3 : tx < t.ncols) (_h4 : ty < t.nrows) :
    get_average t (fx, fy) (tx, ty)
      = get_sum t (fx, fy) (tx, ty)
          / (get_data_count t (fx, fy) (tx, ty) : ℚ) := rfl

theorem C8_witness :
    ((0 : Nat) ≤ 1 ∧ (0 : Nat) ≤ 1 ∧
      1 < (calculate_full_summed_area_table srcA).ncols ∧
      1 < (calculate_full_summed_area_table srcA).nrows) ∧
      get_average (calculate_full_summed_area_table srcA) (0, 0) (1, 1)
        = get_sum (calculate_full_summed_area_table srcA) (0, 0) (1, 1)
            / (get_data_count (calculate_full_summed_area_table srcA) (0, 0) (1, 1) : ℚ) :=
  ⟨⟨by decide, by decide, by decide, by decide⟩,
    C8_average_eq_sum_div_count (calculate_full_summed_area_table srcA) 0 0 1 1
      (by decide) (by decide) (by decide) (by decide)⟩

/-- Claim C9: for every query rectangle with `from ≤ to` componentwise,
`get_data_count(from, to) = (to.x - from.x + 1) * (to.y - from.y + 1)`. -/
theorem C9_data_count_formula (t : SummedAreaTable) (fx fy tx ty : Nat)
    (_h1 : fx ≤ tx) (_h2 : fy ≤ ty) :
    get_data_count t (fx, fy) (tx, ty) = (tx - fx + 1) * (ty - fy + 1) := rfl

theorem C9_witness :
    ((1 : Nat) ≤ 3 ∧ (0 : Nat) ≤ 2) ∧
      get_data_count (calculate_full_summed_area_table srcA) (1, 0) (3, 2)
        = (3 - 1 + 1) * (2 - 0 + 1) :=
  ⟨⟨by decide, by decide⟩,
    C9_data_count_formula (calculate_full_summed_area_table srcA) 1 0 3 2
      (by decide) (by decide)⟩

/-- Claim C10: `calculate_summed_area_table` returns a zero-initialized
table of the FULL source dimensions (`height × width`); only cells with
`from_y ≤ row ≤ to_y` and `from_x ≤ col ≤ to_x` are written — every cell
outside that sub-rectangle is zero — and each written cell holds the
cumulative sum over the sub-rectangle, addressed by its original global
coordinates. -/
theorem C10_frame_effect (src : SummedAreaTableSource) (fx fy tx ty : Nat)
    (_h1 : fx ≤ tx) (_h2 : fy ≤ ty) (_h3 : tx < src.width) (_h4 : ty < src.height) :
    (calculate_summed_area_table src (fx, fy) (tx, ty)).nrows = src.height ∧
    (calculate_summed_area_table src (fx, fy) (tx, ty)).ncols = src.width ∧
    (∀ r c, ¬(fy ≤ r ∧ r ≤ ty ∧ fx ≤ c ∧ c ≤ tx) →
      (calculate_summed_area_table src (fx, fy) (tx, ty)).table r c = 0) ∧
    (∀ r c, fy ≤ r → r ≤ ty → fx ≤ c → c ≤ tx →
      (calculate_summed_area_table src (fx, fy) (tx, ty)).table r c
        = ∑ x in Finset.Icc fx c, ∑ y in Finset.Icc fy r, src.at' x y) := by
  refine ⟨rfl, rfl, ?_, ?_⟩
  · intro r c h
    rw [calc_table_char]
    show (if inRect fx fy tx ty r c then rectSum src fx fy c r else 0) = 0
    rw [if_neg (show ¬inRect fx fy tx ty r c from fun hc => h hc)]
  · intro r c hr1 hr2 hc1 hc2
    rw [calc_table_char]
    show (if inRect fx fy tx ty r c then rectSum src fx fy c r else 0) = _
    rw [if_pos ⟨hr1, hr2, hc1, hc2⟩, rectSum]
    exact Finset.sum_comm

theorem C10_witness :
    ((1 : Nat) ≤ 1 ∧ (1 : Nat) ≤ 1 ∧ 1 < srcA.width ∧ 1 < srcA.height) ∧
      (calculate_summed_area_table srcA (1, 1) (1, 1)).table 0 1 = 0 ∧
      (calculate_summed_area_table srcA (1, 1) (1, 1)).table 1 1
        = ∑ x in Finset.Icc 1 1, ∑ y in Finset.Icc 1 1, srcA.at' x y :=
  ⟨⟨by decide, by decide, by decide, by decide⟩,
    (C10_frame_effect srcA 1 1 1 1 (by decide) (by decide) (by decide)
        (by decide)).2.2.1 0 1 (by decide),
    (C10_frame_effect srcA 1 1 1 1 (by decide) (by decide) (by decide)
        (by decide)).2.2.2 1 1 (by decide) (by decide) (by decide) (by decide)⟩
